import Mathlib

/-!
Verification of the Stockman front-end (frontend/js/app.js) and its service
worker against the natural-language specification.  The JavaScript source is
shallowly embedded: each handler becomes a pure Lean function from its inputs
and the outcomes of its asynchronous calls to the sequence of observable
effects (messages appended, caches mutated, notifications shown).
-/

/-! ## Chat data model

A displayed chat message is a role together with its content.  JavaScript
values flowing into message contents can be `undefined` (for instance
`data.reply` when the chat response carries no `reply` field), so content is
modelled as `Option String`, `none` standing for `undefined`.
-/

/-- Whitespace as recognised by JavaScript `String.prototype.trim`. -/
def isJsWhitespace (c : Char) : Bool :=
  c = ' ' || c = '\t' || c = '\n' || c = '\r' || c = '\x0b' || c = '\x0c'

/-- JavaScript `s.trim()`: strip leading and trailing whitespace. -/
def jsTrim (s : String) : String :=
  String.mk (((s.data.dropWhile isJsWhitespace).reverse.dropWhile isJsWhitespace).reverse)

inductive Role where
  | user
  | assistant
deriving DecidableEq

/-- Outcome of the `POST /api/chat` round trip as observed by the client:
either the fetch or the `.json()` call rejected, or parsing succeeded and the
body's `reply` field was the given value (`none` = field absent). -/
inductive ChatOutcome where
  | failure
  | success (reply : Option String)

/-- JavaScript truthiness of a possibly-undefined string, as tested by
`if (data.reply)`: `undefined`, `null` and the empty string are falsy. -/
def jstrTruthy : Option String → Bool
  | none => false
  | some s => s != ""

/-- The blank test `!text || text.trim() === ''` from `processVoice`. -/
def jstrBlank : Option String → Bool
  | none => true
  | some s => s == "" || jsTrim s == ""

def chatErrorMsg : String := "Sorry, I encountered an error. Please try again."

/-- `sendMessage` (app.js lines 132-165): trim the input; bail out when the
trimmed text is falsy; otherwise append the user message, issue the chat
request, and on success append the assistant reply only when `data.reply` is
truthy, while any rejection appends a fixed apology.  The returned list is
the sequence of messages appended, in order. -/
def sendMessage (input : String) (c : ChatOutcome) : List (Role × Option String) :=
  let message := jsTrim input
  if message == "" then []
  else
    (Role.user, some message) ::
      match c with
      | ChatOutcome.failure => [(Role.assistant, some chatErrorMsg)]
      | ChatOutcome.success reply =>
        if jstrTruthy reply then [(Role.assistant, reply)] else []

/-- Contents of the assistant-role entries of an appended-message sequence. -/
def assistantContents (l : List (Role × Option String)) : List (Option String) :=
  (l.filter (fun m => m.1 == Role.assistant)).map (fun m => m.2)

/-- Contents of the user-role entries of an appended-message sequence. -/
def userContents (l : List (Role × Option String)) : List (Option String) :=
  (l.filter (fun m => m.1 == Role.user)).map (fun m => m.2)

/-! ## Voice processing (app.js lines 198-308) -/

inductive Mode where
  | text
  | chat
deriving DecidableEq

/-- Outcome of the `POST /api/voice/transcribe` round trip: the fetch or
`.json()` rejected, the response resolved with `ok` false (which the code
turns into a thrown error), or it resolved with the parsed `text` field. -/
inductive TranscriptionOutcome where
  | reject
  | resolvedNotOk
  | resolved (text : Option String)

def didntCatchMsg : String := "I didn't catch that. Please try speaking again."

def voiceTextApology : String :=
  "Voice service temporarily unavailable. Please type your message."

def voiceChatApology : String :=
  "Sorry, I had trouble with the voice service. Please try again or type your message."

/-- The mode-specific apology appended by the `catch` block of `processVoice`. -/
def voiceApology : Mode → String
  | Mode.text => voiceTextApology
  | Mode.chat => voiceChatApology

/-- `processVoice` (app.js lines 248-308) as the sequence of messages it
appends.  Transcription rejection or a non-ok transcription response lands in
the catch block (mode-specific apology).  A blank transcript yields the
"didn't catch that" assistant message.  In text mode a good transcript only
populates the input field (no message).  In chat mode the transcript is
appended as a user message and the chat reply is appended unconditionally
(`addMessage('assistant', reply)` with no truthiness check); a failing chat
call lands in the same catch block.  `speakResponse` traps all of its own
errors internally, so it never adds or suppresses messages. -/
def processVoice (mode : Mode) (t : TranscriptionOutcome) (c : ChatOutcome) :
    List (Role × Option String) :=
  match t with
  | TranscriptionOutcome.reject => [(Role.assistant, some (voiceApology mode))]
  | TranscriptionOutcome.resolvedNotOk => [(Role.assistant, some (voiceApology mode))]
  | TranscriptionOutcome.resolved text =>
    if jstrBlank text then [(Role.assistant, some didntCatchMsg)]
    else
      match mode with
      | Mode.text => []
      | Mode.chat =>
        (Role.user, text) ::
          match c with
          | ChatOutcome.failure => [(Role.assistant, some (voiceApology Mode.chat))]
          | ChatOutcome.success reply => [(Role.assistant, reply)]

/-! ## The recorder `onstop` handler (app.js lines 211-224)

`mediaRecorder.onstop` concatenates the accumulated chunks into one Blob,
updates the status line, awaits `processVoice` (which traps every error it
can raise, hence always resolves), then stops every track of the microphone
stream and hides the modal.  The handler is modelled as the ordered trace of
these effects. -/

inductive StopEvent where
  | blobConcat
  | statusUpdate
  | message (role : Role) (content : Option String)
  | tracksReleased
  | modalHidden
deriving DecidableEq

def onstopTrace (mode : Mode) (t : TranscriptionOutcome) (c : ChatOutcome) :
    List StopEvent :=
  StopEvent.blobConcat :: StopEvent.statusUpdate ::
    ((processVoice mode t c).map (fun m => StopEvent.message m.1 m.2) ++
      [StopEvent.tracksReleased, StopEvent.modalHidden])

theorem count_message_map_eq_zero (l : List (Role × Option String)) (e : StopEvent)
    (h : ∀ r co, e ≠ StopEvent.message r co) :
    (l.map (fun m => StopEvent.message m.1 m.2)).count e = 0 := by
  induction l with
  | nil => rfl
  | cons x xs ih =>
    simp only [List.map_cons, List.count_cons, ih]
    have : ¬ (e = StopEvent.message x.1 x.2) := h x.1 x.2
    simp [this]
    intro hc
    exact (h x.1 x.2 hc.symm).elim

/-- C1 counterexample: with non-empty input "hi", a failed chat call appends
one assistant-role apology entry (not zero, as the claim states), and a
successful call whose `reply` field is present but empty appends zero
assistant entries (not one). -/
theorem c1_counterexample :
    assistantContents (sendMessage "hi" ChatOutcome.failure) = [some chatErrorMsg] ∧
    assistantContents (sendMessage "hi" ChatOutcome.failure) ≠ [] ∧
    assistantContents (sendMessage "hi" (ChatOutcome.success (some ""))) = [] := by
  refine ⟨by decide, by decide, by decide⟩

/-- C1 (amended): for every input with non-empty trim, `sendMessage` appends
the user entry first and exactly once; it appends at most one assistant
entry: exactly one fixed apology when the call fails, and on success exactly
one carrying the reply when the reply field is truthy (present and
non-empty) and zero otherwise. -/
theorem c1_theorem (input : String) (c : ChatOutcome) (h : jsTrim input ≠ "") :
    (sendMessage input c).head? = some (Role.user, some (jsTrim input)) ∧
    userContents (sendMessage input c) = [some (jsTrim input)] ∧
    (assistantContents (sendMessage input c)).length ≤ 1 ∧
    (c = ChatOutcome.failure →
      assistantContents (sendMessage input c) = [some chatErrorMsg]) ∧
    (∀ r, c = ChatOutcome.success r →
      assistantContents (sendMessage input c) =
        if jstrTruthy r then [r] else []) := by
  have hb : (jsTrim input == "") = false := by
    simp [beq_iff_eq, h]
  cases c with
  | failure =>
    refine ⟨?_, ?_, ?_, ?_, ?_⟩ <;>
      simp [sendMessage, hb, assistantContents, userContents]
  | success r =>
    by_cases hr : jstrTruthy r = true
    · refine ⟨?_, ?_, ?_, ?_, ?_⟩ <;>
        simp [sendMessage, hb, hr, assistantContents, userContents]
    · have hr' : jstrTruthy r = false := by
        revert hr; cases jstrTruthy r <;> simp
      refine ⟨?_, ?_, ?_, ?_, ?_⟩ <;>
        simp [sendMessage, hb, hr', assistantContents, userContents]

theorem c1_witness :
    jsTrim "hi" ≠ "" ∧
    assistantContents (sendMessage "hi" ChatOutcome.failure) = [some chatErrorMsg] := by
  refine ⟨by decide, ?_⟩
  have h := c1_theorem "hi" ChatOutcome.failure (by decide)
  exact h.2.2.2.1 rfl

/-- C8: for every voice mode and every combination of transcription and chat
outcomes (success, empty transcript, rejection, non-ok response, chat
failure), the `onstop` trace concatenates the chunks exactly once and first,
releases the microphone tracks exactly once, and the release happens after
all message-appending effects, followed only by hiding the modal. -/
theorem c8_theorem (mode : Mode) (t : TranscriptionOutcome) (c : ChatOutcome) :
    (onstopTrace mode t c).count StopEvent.blobConcat = 1 ∧
    (onstopTrace mode t c).count StopEvent.tracksReleased = 1 ∧
    (onstopTrace mode t c).head? = some StopEvent.blobConcat ∧
    (onstopTrace mode t c).drop ((processVoice mode t c).length + 2) =
      [StopEvent.tracksReleased, StopEvent.modalHidden] := by
  have hblob : ((processVoice mode t c).map
      (fun m => StopEvent.message m.1 m.2)).count StopEvent.blobConcat = 0 :=
    count_message_map_eq_zero _ _ (fun r co => by simp)
  have hrel : ((processVoice mode t c).map
      (fun m => StopEvent.message m.1 m.2)).count StopEvent.tracksReleased = 0 :=
    count_message_map_eq_zero _ _ (fun r co => by simp)
  refine ⟨?_, ?_, ?_, ?_⟩
  · simp [onstopTrace, List.count_cons, List.count_append, hblob]
  · simp [onstopTrace, List.count_cons, List.count_append, hrel]
  · rfl
  · show (onstopTrace mode t c).drop ((processVoice mode t c).length + 2) = _
    have : onstopTrace mode t c =
        StopEvent.blobConcat :: StopEvent.statusUpdate ::
          ((processVoice mode t c).map (fun m => StopEvent.message m.1 m.2) ++
            [StopEvent.tracksReleased, StopEvent.modalHidden]) := rfl
    have h2 : ∀ (n : Nat) (x y : StopEvent) (l : List StopEvent),
        (x :: y :: l).drop (n + 2) = l.drop n := fun n x y l => rfl
    rw [this, h2]
    rw [show (processVoice mode t c).length =
      ((processVoice mode t c).map (fun m => StopEvent.message m.1 m.2)).length by
        simp]
    exact List.drop_left _ _

/-- C10: in voice chat mode with a non-blank transcript, `processVoice`
appends the assistant entry carrying exactly the `reply` value of the chat
response, even when that field is absent (`undefined`); `sendMessage`, in
contrast, appends an assistant entry on success only when the reply field is
truthy (hence present). -/
theorem c10_theorem (reply : Option String) (t input : String)
    (ht : jstrBlank (some t) = false) (hi : jsTrim input ≠ "") :
    assistantContents
        (processVoice Mode.chat (TranscriptionOutcome.resolved (some t))
          (ChatOutcome.success reply)) = [reply] ∧
    assistantContents (sendMessage input (ChatOutcome.success reply)) =
      (if jstrTruthy reply then [reply] else []) := by
  constructor
  · simp [processVoice, ht, assistantContents]
  · exact (c1_theorem input (ChatOutcome.success reply) hi).2.2.2.2 reply rfl

theorem c10_witness :
    jstrBlank (some "hello") = false ∧
    jsTrim "hi" ≠ "" ∧
    assistantContents
        (processVoice Mode.chat (TranscriptionOutcome.resolved (some "hello"))
          (ChatOutcome.success none)) = [none] ∧
    assistantContents (sendMessage "hi" (ChatOutcome.success none)) = [] := by
  refine ⟨by decide, by decide, ?_, ?_⟩
  · exact (c10_theorem none "hello" "hi" (by decide) (by decide)).1
  · have h := (c10_theorem none "hello" "hi" (by decide) (by decide)).2
    simpa [jstrTruthy] using h

/-! ## Service worker (sw.js)

The service worker handles install, activate, fetch, and push events.  The
fetch handler is modelled as a function from the request, the outcome of the
network fetch, and the current contents of the versioned cache to the
response disposition and the updated cache. -/

def CACHE_NAME : String := "stockman-v1"

structure SWRequest where
  method : String
  url : String
deriving DecidableEq

/-- The contents of the versioned cache: request keys mapped to stored
response bodies (responses are modelled by their bodies, which is all the
handler inspects). -/
abbrev SWCache := List (SWRequest × String)

/-- `caches.match(request)`: look up the stored response for a request. -/
def cacheMatch (cache : SWCache) (req : SWRequest) : Option String :=
  (cache.find? (fun e => e.1 == req)).map (fun e => e.2)

/-- `cache.put(request, response)`: store, overwriting any prior entry. -/
def cachePut (cache : SWCache) (req : SWRequest) (resp : String) : SWCache :=
  (req, resp) :: cache.filter (fun e => e.1 != req)

/-- `haystack.includes(needle)` on strings, via an explicit prefix scan. -/
def hasPrefixL : List Char → List Char → Bool
  | [], _ => true
  | _ :: _, [] => false
  | p :: ps, c :: cs => p == c && hasPrefixL ps cs

def includesL (needle : List Char) : List Char → Bool
  | [] => hasPrefixL needle []
  | c :: rest => hasPrefixL needle (c :: rest) || includesL needle rest

def jsIncludes (haystack needle : String) : Bool :=
  includesL needle.data haystack.data

/-- Outcome of the network `fetch(event.request)` inside the handler. -/
inductive NetOutcome where
  | failure
  | success (resp : String)

/-- What the fetch handler does with a request: return before calling
`respondWith` (passthrough), respond from the network, respond from the
cache, or resolve `respondWith` with no response at all (`caches.match`
returned `undefined`), which the platform turns into a rejection of the
page fetch. -/
inductive FetchDisposition where
  | passthrough
  | fromNetwork (resp : String)
  | fromCache (resp : String)
  | noResponse
deriving DecidableEq

/-- The `fetch` event listener (sw.js lines 58-80): skip non-GET requests and
requests whose URL contains `/api/`; otherwise try the network, caching a
clone of any successful response, and fall back to `caches.match` on
failure. -/
def swFetchHandler (req : SWRequest) (net : NetOutcome) (cache : SWCache) :
    FetchDisposition × SWCache :=
  if req.method != "GET" then (FetchDisposition.passthrough, cache)
  else if jsIncludes req.url "/api/" then (FetchDisposition.passthrough, cache)
  else
    match net with
    | NetOutcome.success resp => (FetchDisposition.fromNetwork resp, cachePut cache req resp)
    | NetOutcome.failure =>
      match cacheMatch cache req with
      | some r => (FetchDisposition.fromCache r, cache)
      | none => (FetchDisposition.noResponse, cache)

/-- Platform contract of `event.respondWith`: resolving it with a value that
is not a `Response` (here: the `undefined` of a cache miss) makes the page
fetch reject with a network error.  No offline page is ever synthesized by
the handler itself. -/
def pageFetchRejects : FetchDisposition → Bool
  | FetchDisposition.noResponse => true
  | _ => false

/-- C3: for every intercepted GET request whose network fetch fails, the
handler falls back to the cache lookup keyed by the request and leaves the
cache unchanged; when the lookup has an entry the cached response is
returned, and when it has none the handler resolves with no response, so the
page fetch rejects (no offline page is synthesized). -/
theorem c3_theorem (req : SWRequest) (cache : SWCache)
    (hm : req.method = "GET") (ha : jsIncludes req.url "/api/" = false) :
    (swFetchHandler req NetOutcome.failure cache).2 = cache ∧
    (∀ r, cacheMatch cache req = some r →
      (swFetchHandler req NetOutcome.failure cache).1 = FetchDisposition.fromCache r) ∧
    (cacheMatch cache req = none →
      (swFetchHandler req NetOutcome.failure cache).1 = FetchDisposition.noResponse ∧
      pageFetchRejects (swFetchHandler req NetOutcome.failure cache).1 = true) := by
  have hm' : (req.method != "GET") = false := by simp [bne, hm]
  refine ⟨?_, ?_, ?_⟩
  · simp only [swFetchHandler, hm', ha, if_false, Bool.false_eq_true]
    cases hmatch : cacheMatch cache req <;> simp [hmatch]
  · intro r hmatch
    simp [swFetchHandler, hm', ha, hmatch]
  · intro hmatch
    simp [swFetchHandler, hm', ha, hmatch, pageFetchRejects]

theorem c3_witness :
    (⟨"GET", "/index.html"⟩ : SWRequest).method = "GET" ∧
    jsIncludes "/index.html" "/api/" = false ∧
    cacheMatch [] ⟨"GET", "/index.html"⟩ = none ∧
    (swFetchHandler ⟨"GET", "/index.html"⟩ NetOutcome.failure []).1 =
      FetchDisposition.noResponse := by
  refine ⟨rfl, by decide, rfl, ?_⟩
  have h := c3_theorem ⟨"GET", "/index.html"⟩ [] rfl (by decide)
  exact (h.2.2 rfl).1

/-- C5: every fetch event whose request method is not GET or whose URL
contains `/api/` is passed through untouched: the handler never responds for
it (neither from network nor cache) and the cache state is unchanged. -/
theorem c5_theorem (req : SWRequest) (net : NetOutcome) (cache : SWCache)
    (h : req.method ≠ "GET" ∨ jsIncludes req.url "/api/" = true) :
    swFetchHandler req net cache = (FetchDisposition.passthrough, cache) := by
  rcases h with h | h
  · have h' : (req.method != "GET") = true := by simp [bne, h]
    simp [swFetchHandler, h']
  · by_cases hm : req.method = "GET"
    · have hm' : (req.method != "GET") = false := by simp [bne, hm]
      simp [swFetchHandler, hm', h]
    · have hm' : (req.method != "GET") = true := by simp [bne, hm]
      simp [swFetchHandler, hm']

theorem c5_witness :
    swFetchHandler ⟨"POST", "/index.html"⟩ (NetOutcome.success "page") [] =
      (FetchDisposition.passthrough, []) ∧
    swFetchHandler ⟨"GET", "/api/chat"⟩ (NetOutcome.success "data") [] =
      (FetchDisposition.passthrough, []) := by
  constructor
  · exact c5_theorem _ _ _ (Or.inl (by decide))
  · exact c5_theorem _ _ _ (Or.inr (by decide))

/-- The `activate` event listener (sw.js lines 37-52): enumerate all cache
names and delete every one different from `CACHE_NAME`.  The value is the
list of names passed to `caches.delete`, one call per listed name. -/
def activateDeletions (cacheNames : List String) : List String :=
  cacheNames.filter (fun name => name != CACHE_NAME)

/-- C6: on activation, exactly the cache names different from the current
version name are deleted, each exactly once (cache names are unique in the
cache storage), and the current version name is never deleted. -/
theorem c6_theorem (cacheNames : List String) (h : cacheNames.Nodup) :
    (∀ n, n ∈ activateDeletions cacheNames ↔ (n ∈ cacheNames ∧ n ≠ CACHE_NAME)) ∧
    (∀ n ∈ cacheNames, n ≠ CACHE_NAME → (activateDeletions cacheNames).count n = 1) ∧
    CACHE_NAME ∉ activateDeletions cacheNames := by
  have hmem : ∀ n, n ∈ activateDeletions cacheNames ↔ (n ∈ cacheNames ∧ n ≠ CACHE_NAME) := by
    intro n
    simp [activateDeletions, List.mem_filter, bne_iff_ne]
  refine ⟨hmem, ?_, ?_⟩
  · intro n hn hne
    have hnodup : (activateDeletions cacheNames).Nodup := h.filter _
    exact List.count_eq_one_of_mem hnodup ((hmem n).mpr ⟨hn, hne⟩)
  · intro hc
    exact ((hmem CACHE_NAME).mp hc).2 rfl

theorem c6_witness :
    (["stockman-v0", "stockman-v1", "other"] : List String).Nodup ∧
    (activateDeletions ["stockman-v0", "stockman-v1", "other"]).count "stockman-v0" = 1 ∧
    CACHE_NAME ∉ activateDeletions ["stockman-v0", "stockman-v1", "other"] := by
  have h := c6_theorem ["stockman-v0", "stockman-v1", "other"] (by decide)
  exact ⟨by decide, h.2.1 "stockman-v0" (by decide) (by decide), h.2.2⟩

/-! ## Morning wisdom check (app.js lines 384-420) -/

/-- Inputs read by `checkMorningWisdom`: current local hour and minute (the
minute is read but never used), the current date string, the stored value of
the `stockman_wisdom_date` local-storage key, and the notification
permission state. -/
structure WisdomEnv where
  hour : Nat
  minute : Nat
  today : String
  lastShownDate : Option String
  notifPermission : String

/-- Outcome of the `GET /api/morning-wisdom` round trip: the fetch or the
`.json()` call rejected, or parsing succeeded with the given `wisdom`
field (`none` = field absent). -/
inductive WisdomOutcome where
  | requestFails
  | requestOk (wisdom : Option String)

/-- Observable result of one `checkMorningWisdom` run: whether the endpoint
was fetched, how many notifications were displayed, and the final value of
the `stockman_wisdom_date` key. -/
structure WisdomResult where
  didFetch : Bool
  notificationsShown : Nat
  storedDate : Option String
deriving DecidableEq

/-- `checkMorningWisdom`: return outside the 7:00-8:59 local-hour window,
when the stored date equals today, or when notification permission is not
granted; otherwise fetch the wisdom endpoint and, if the `wisdom` field is
truthy, show one notification and record today in local storage. -/
def checkMorningWisdom (env : WisdomEnv) (outcome : WisdomOutcome) : WisdomResult :=
  if env.hour < 7 ∨ 9 ≤ env.hour then ⟨false, 0, env.lastShownDate⟩
  else if env.lastShownDate == some env.today then ⟨false, 0, env.lastShownDate⟩
  else if env.notifPermission != "granted" then ⟨false, 0, env.lastShownDate⟩
  else
    match outcome with
    | WisdomOutcome.requestFails => ⟨true, 0, env.lastShownDate⟩
    | WisdomOutcome.requestOk w =>
      if jstrTruthy w then ⟨true, 1, some env.today⟩
      else ⟨true, 0, env.lastShownDate⟩

/-- C7: at local hour 6 (e.g. 06:59) or at hour 9 or later, the check
performs no fetch and shows no notification; at hour 7 (e.g. 07:30) with
permission granted and no stored entry for today, it fetches, and a
non-empty `wisdom` field yields exactly one notification and stores today's
date. -/
theorem c7_theorem (env : WisdomEnv) (outcome : WisdomOutcome) :
    (env.hour = 6 ∨ 9 ≤ env.hour →
      checkMorningWisdom env outcome = ⟨false, 0, env.lastShownDate⟩) ∧
    (env.hour = 7 → env.notifPermission = "granted" →
      env.lastShownDate ≠ some env.today →
      (checkMorningWisdom env outcome).didFetch = true ∧
      (∀ w, outcome = WisdomOutcome.requestOk (some w) → w ≠ "" →
        checkMorningWisdom env outcome = ⟨true, 1, some env.today⟩)) := by
  constructor
  · intro h
    have hcond : env.hour < 7 ∨ 9 ≤ env.hour := by
      rcases h with h | h
      · exact Or.inl (by omega)
      · exact Or.inr h
    simp [checkMorningWisdom, hcond]
  · intro h7 hperm hdate
    have hcond : ¬ (env.hour < 7 ∨ 9 ≤ env.hour) := by omega
    have hdate' : (env.lastShownDate == some env.today) = false := by
      simp [beq_iff_eq, hdate]
    have hperm' : (env.notifPermission != "granted") = false := by
      simp [bne, hperm]
    constructor
    · cases outcome with
      | requestFails => simp [checkMorningWisdom, hcond, hdate', hperm']
      | requestOk w =>
        by_cases hw : jstrTruthy w = true <;>
          simp [checkMorningWisdom, hcond, hdate', hperm', hw]
    · intro w hout hw
      subst hout
      have hw' : jstrTruthy (some w) = true := by simp [jstrTruthy, hw]
      simp [checkMorningWisdom, hcond, hdate', hperm', hw']

theorem c7_witness :
    checkMorningWisdom ⟨6, 59, "Sat Oct 11 2025", none, "granted"⟩
        (WisdomOutcome.requestOk (some "Buy low.")) =
      ⟨false, 0, none⟩ ∧
    checkMorningWisdom ⟨9, 0, "Sat Oct 11 2025", none, "granted"⟩
        (WisdomOutcome.requestOk (some "Buy low.")) =
      ⟨false, 0, none⟩ ∧
    checkMorningWisdom ⟨7, 30, "Sat Oct 11 2025", none, "granted"⟩
        (WisdomOutcome.requestOk (some "Buy low.")) =
      ⟨true, 1, some "Sat Oct 11 2025"⟩ := by
  refine ⟨?_, ?_, ?_⟩
  · exact (c7_theorem _ _).1 (Or.inl rfl)
  · exact (c7_theorem _ _).1 (Or.inr (by decide))
  · exact ((c7_theorem ⟨7, 30, "Sat Oct 11 2025", none, "granted"⟩
      (WisdomOutcome.requestOk (some "Buy low."))).2 rfl rfl (by decide)).2
      "Buy low." rfl (by decide)

/-! ## Stock ticker symbol set (app.js lines 704-743) -/

/-- The fixed default ticker list of `loadTicker`. -/
def defaultTickers : List String :=
  ["AAPL", "MSFT", "GOOGL", "AMZN", "NVDA", "TSLA",
   "META", "NFLX", "AMD", "INTC", "CRM", "ORCL",
   "JPM", "V", "MA", "BAC",
   "JNJ", "PFE", "UNH",
   "XOM", "CVX"]

/-- `[...new Set(list)]`: deduplicate preserving first-occurrence insertion
order, as a JavaScript `Set` does. -/
def jsSetDedup (l : List String) : List String :=
  l.foldl (fun acc x => if x ∈ acc then acc else acc ++ [x]) []

/-- The symbol list `loadTicker` hands to `updateTickerWithStocks`, which
issues one quote fetch per listed symbol: defaults, then the portfolio
tickers, then the watchlist tickers, deduplicated via a `Set`. -/
def loadTickerSymbols (portfolioTickers watchlistTickers : List String) : List String :=
  jsSetDedup (defaultTickers ++ portfolioTickers ++ watchlistTickers)

theorem jsSetDedup_foldl_nodup (l acc : List String) (h : acc.Nodup) :
    (l.foldl (fun acc x => if x ∈ acc then acc else acc ++ [x]) acc).Nodup := by
  induction l generalizing acc with
  | nil => exact h
  | cons x xs ih =>
    simp only [List.foldl_cons]
    by_cases hx : x ∈ acc
    · simpa [hx] using ih acc h
    · have h' : (acc ++ [x]).Nodup := by
        simp [List.nodup_append, h, hx]
      simpa [hx] using ih (acc ++ [x]) h'

theorem jsSetDedup_foldl_mem (l acc : List String) (s : String) :
    s ∈ l.foldl (fun acc x => if x ∈ acc then acc else acc ++ [x]) acc ↔
      s ∈ acc ∨ s ∈ l := by
  induction l generalizing acc with
  | nil => simp
  | cons x xs ih =>
    simp only [List.foldl_cons]
    by_cases hx : x ∈ acc
    · rw [if_pos hx, ih]
      constructor
      · rintro (h | h)
        · exact Or.inl h
        · exact Or.inr (List.mem_cons_of_mem _ h)
      · rintro (h | h)
        · exact Or.inl h
        · rcases List.mem_cons.mp h with h | h
          · exact Or.inl (h ▸ hx)
          · exact Or.inr h
    · rw [if_neg hx, ih]
      simp only [List.mem_append, List.mem_singleton, List.mem_cons]
      tauto

/-- C9: for every portfolio and watchlist returned by the backend, the
symbol list used for the ticker display contains no duplicate symbol when
the per-symbol quote fetches are issued, and it is exactly the union of the
defaults, the portfolio tickers and the watchlist tickers. -/
theorem c9_theorem (portfolioTickers watchlistTickers : List String) :
    (loadTickerSymbols portfolioTickers watchlistTickers).Nodup ∧
    (∀ s, s ∈ loadTickerSymbols portfolioTickers watchlistTickers ↔
      (s ∈ defaultTickers ∨ s ∈ portfolioTickers ∨ s ∈ watchlistTickers)) := by
  constructor
  · exact jsSetDedup_foldl_nodup _ [] List.nodup_nil
  · intro s
    rw [loadTickerSymbols, jsSetDedup, jsSetDedup_foldl_mem]
    simp

/-! ## Push notifications (sw.js lines 86-122) -/

/-- The fields of a parsed push payload that the shallow merge
`{ ...data, ...event.data.json() }` can override (each `none` when the
parsed object lacks the field). -/
structure PushPayloadFields where
  title : Option String
  body : Option String
  icon : Option String
  badge : Option String
  dataUrl : Option String

/-- A push event payload: either `event.data.json()` parses, yielding the
fields, or it throws and `event.data.text()` yields the raw text. -/
inductive PushPayload where
  | parsed (fields : PushPayloadFields)
  | raw (text : String)

/-- The `data` object the push handler builds before constructing the
notification options. -/
structure PushData where
  title : String
  body : String
  icon : String
  badge : String
  dataUrl : String
deriving DecidableEq

/-- The default descriptor the handler starts from. -/
def defaultPushData : PushData :=
  ⟨"Stockman", "You have a new update!", "/icons/icon-192.png", "/icons/icon-72.png", "/"⟩

/-- The shallow merge `{ ...data, ...json }` restricted to the consumed
fields: a field of the parsed payload overrides the default when present. -/
def mergePushData (base : PushData) (f : PushPayloadFields) : PushData :=
  ⟨f.title.getD base.title, f.body.getD base.body, f.icon.getD base.icon,
   f.badge.getD base.badge, f.dataUrl.getD base.dataUrl⟩

/-- The push handler data computation: start from the defaults; with a
parseable payload shallow-merge it over them; if parsing throws, set only
`data.body` to the raw payload text. -/
def pushEventData : Option PushPayload → PushData
  | none => defaultPushData
  | some (PushPayload.parsed f) => mergePushData defaultPushData f
  | some (PushPayload.raw text) => { defaultPushData with body := text }

/-- The notification actually displayed: title and the option fields the
handler passes to `showNotification` (vibration pattern and action list are
fixed constants and omitted). -/
structure NotificationView where
  title : String
  body : String
  icon : String
  badge : String
  dataUrl : String
  tag : String
  requireInteraction : Bool
deriving DecidableEq

def shownNotification (p : Option PushPayload) : NotificationView :=
  let d := pushEventData p
  ⟨d.title, d.body, d.icon, d.badge, d.dataUrl, "stockman-notification", false⟩

/-- C4: for every push payload that fails structured parsing, the displayed
notification body is the raw payload text and every other field (title,
icon, badge, deep-link data) keeps its documented default. -/
theorem c4_theorem (text : String) :
    shownNotification (some (PushPayload.raw text)) =
      ⟨"Stockman", text, "/icons/icon-192.png", "/icons/icon-72.png", "/",
       "stockman-notification", false⟩ ∧
    (shownNotification (some (PushPayload.raw text))).title =
      (shownNotification none).title ∧
    (shownNotification (some (PushPayload.raw text))).icon =
      (shownNotification none).icon ∧
    (shownNotification (some (PushPayload.raw text))).badge =
      (shownNotification none).badge ∧
    (shownNotification (some (PushPayload.raw text))).dataUrl =
      (shownNotification none).dataUrl := by
  exact ⟨rfl, rfl, rfl, rfl, rfl⟩

/-! ## Message rendering (app.js lines 167-192 and 668-698)

`formatMessage` is a chain of JavaScript regex replacements.  Each
replacement is embedded as a character-list function reproducing the
semantics of its regex: global replacement scans left to right, a lazy
`(.*?)` takes the shortest content whose closer matches (and `.` never
matches a newline), a failed match attempt advances one character, and
replaced text is never rescanned.  Functions whose recursion is not
structural take a fuel argument; every step consumes at least one input
character, so fuel equal to the input length is always sufficient. -/

/-- Global replacement of a fixed non-empty pattern, as
`s.replace(/pat/g, rep)`: leftmost-first, non-overlapping, replacement text
not rescanned. -/
def replaceAll (pat rep : List Char) : Nat → List Char → List Char
  | 0, l => l
  | _ + 1, [] => []
  | fuel + 1, c :: rest =>
    if hasPrefixL pat (c :: rest) then
      rep ++ replaceAll pat rep fuel ((c :: rest).drop pat.length)
    else
      c :: replaceAll pat rep fuel rest

def runReplace (pat rep : String) (l : List Char) : List Char :=
  replaceAll pat.data rep.data l.length l

/-- The escape chain `.replace(/&/g,'&amp;').replace(/</g,'&lt;').replace(/>/g,'&gt;')`,
shared by `formatMessage` and the user branch of `addMessage`. -/
def escapeHtmlL (l : List Char) : List Char :=
  runReplace ">" "&gt;" (runReplace "<" "&lt;" (runReplace "&" "&amp;" l))

def escapeHtml (s : String) : String := String.mk (escapeHtmlL s.data)

/-- Lazy search for the closing double delimiter of `dd(.*?)dd`: at each
position first try to close, then let `.` consume one non-newline
character. -/
def findCloseDD (d : Char) : List Char → Option (List Char × List Char)
  | c1 :: c2 :: rest =>
    if c1 = d ∧ c2 = d then some ([], rest)
    else if c1 = '\n' then none
    else (findCloseDD d (c2 :: rest)).map (fun p => (c1 :: p.1, p.2))
  | _ => none

/-- Bold replacement `/dd(.*?)dd/g` with `<strong>$1</strong>`, for
`d = '*'` and `d = '_'`. -/
def boldDD (d : Char) : Nat → List Char → List Char
  | 0, l => l
  | fuel + 1, l =>
    match l with
    | c1 :: c2 :: rest =>
      if c1 = d ∧ c2 = d then
        match findCloseDD d rest with
        | some (content, rest2) =>
          "<strong>".data ++ content ++ "</strong>".data ++ boldDD d fuel rest2
        | none => c1 :: boldDD d fuel (c2 :: rest)
      else c1 :: boldDD d fuel (c2 :: rest)
    | _ => l

/-- Longest prefix made of characters different from `stop`, with the rest. -/
def spanNot (stop : Char) : List Char → List Char × List Char
  | [] => ([], [])
  | c :: rest =>
    if c = stop then ([], c :: rest)
    else
      let p := spanNot stop rest
      (c :: p.1, p.2)

/-- Italic replacement `/d([^d]+)d/g` with `<em>$1</em>`, for `d = '*'` and
`d = '_'` (the negated class also matches newlines). -/
def emD (d : Char) : Nat → List Char → List Char
  | 0, l => l
  | fuel + 1, l =>
    match l with
    | c :: rest =>
      if c = d then
        match spanNot d rest with
        | (e :: es, c2 :: rest2) =>
          if c2 = d then "<em>".data ++ (e :: es) ++ "</em>".data ++ emD d fuel rest2
          else c :: emD d fuel rest
        | _ => c :: emD d fuel rest
      else c :: emD d fuel rest
    | [] => []

/-- Whitespace for the regex class `\s` (the characters that can occur
inside a line). -/
def isRegexWS (c : Char) : Bool :=
  c = ' ' || c = '\t' || c = '\r' || c = '\x0c' || c = '\x0b' || c = '\u00A0'

def spanWhile (p : Char → Bool) : List Char → List Char × List Char
  | [] => ([], [])
  | c :: rest =>
    if p c then
      let q := spanWhile p rest
      (c :: q.1, q.2)
    else ([], c :: rest)

def wrapLi (content : List Char) : List Char :=
  "<li>".data ++ content ++ "</li>".data

/-- The capture of `\s+(.+)$` at the given line suffix: at least one
whitespace character, then a non-empty greedy capture; when only whitespace
remains, `\s+` backtracks by one character to feed `(.+)`. -/
def seqBody (rest : List Char) : Option (List Char) :=
  match spanWhile isRegexWS rest with
  | ([], _) => none
  | (_ :: _, c :: cs) => some (c :: cs)
  | ([_], []) => none
  | (_ :: w :: ws, []) => some [(w :: ws).getLast (List.cons_ne_nil w ws)]

/-- One line of the bullet replacement `/^[-•]\s+(.+)$/gm`. -/
def lineBullet (line : List Char) : List Char :=
  match line with
  | m :: rest =>
    if m = '-' ∨ m = '•' then
      match seqBody rest with
      | some content => wrapLi content
      | none => line
    else line
  | [] => line

/-- One line of the numbered-list replacement `/^\d+\.\s+(.+)$/gm`. -/
def lineNumbered (line : List Char) : List Char :=
  match spanWhile Char.isDigit line with
  | ([], _) => line
  | (_ :: _, '.' :: rest) =>
    match seqBody rest with
    | some content => wrapLi content
    | none => line
  | _ => line

def splitOnNl : List Char → List (List Char)
  | [] => [[]]
  | c :: rest =>
    if c = '\n' then [] :: splitOnNl rest
    else
      match splitOnNl rest with
      | h :: t => (c :: h) :: t
      | [] => [[c]]

def joinNl : List (List Char) → List Char
  | [] => []
  | [l] => l
  | l :: ls => l ++ '\n' :: joinNl ls

/-- Lazy search for `</li>` (the `s` flag lets `.` match newlines, so no
newline restriction here). -/
def findCloseLi : List Char → Option (List Char × List Char)
  | '<' :: '/' :: 'l' :: 'i' :: '>' :: rest => some ([], rest)
  | c :: rest => (findCloseLi rest).map (fun p => (c :: p.1, p.2))
  | [] => none

/-- One `<li>.*?</li>` group at the current position. -/
def parseLiGroup : List Char → Option (List Char × List Char)
  | '<' :: 'l' :: 'i' :: '>' :: rest =>
    (findCloseLi rest).map (fun p => ("<li>".data ++ p.1 ++ "</li>".data, p.2))
  | _ => none

/-- A maximal run `(<li>.*?</li>)+` of immediately adjacent groups. -/
def parseLiRun : Nat → List Char → Option (List Char × List Char)
  | 0, _ => none
  | fuel + 1, l =>
    match parseLiGroup l with
    | none => none
    | some (m, rest) =>
      match parseLiRun fuel rest with
      | some (m2, rest2) => some (m ++ m2, rest2)
      | none => some (m, rest)

/-- The wrap `html.replace(/(<li>.*?<\/li>)+/gs, '<ul>$&</ul>')`. -/
def ulWrap : Nat → List Char → List Char
  | 0, l => l
  | _ + 1, [] => []
  | fuel + 1, c :: rest =>
    match parseLiRun (c :: rest).length (c :: rest) with
    | some (m, rest2) => "<ul>".data ++ m ++ "</ul>".data ++ ulWrap fuel rest2
    | none => c :: ulWrap fuel rest

/-- The final step of `formatMessage`: wrap in a paragraph unless the html
already starts with a tag. -/
def paragraphWrap (html : List Char) : List Char :=
  if hasPrefixL ['<'] html then html else "<p>".data ++ html ++ "</p>".data

/-- The markdown substitution chain of `formatMessage` after the escape
step: bold, italic, bullet and numbered list items (line by line), blank
lines to paragraph breaks, newlines to `<br>`, and grouping of adjacent
`<li>` elements into `<ul>`. -/
def markdownSubstitutions (l : List Char) : List Char :=
  let b1 := boldDD '*' l.length l
  let b2 := boldDD '_' b1.length b1
  let e1 := emD '*' b2.length b2
  let e2 := emD '_' e1.length e1
  let bulleted := joinNl ((splitOnNl e2).map (fun line => lineNumbered (lineBullet line)))
  let para := runReplace "\n" "<br>" (runReplace "\n\n" "</p><p>" bulleted)
  ulWrap para.length para

/-- `formatMessage` (app.js lines 668-698): escape HTML first, apply the
markdown substitutions, group list items, and wrap in a paragraph when the
result does not already start with a tag. -/
def formatMessageL (l : List Char) : List Char :=
  let escaped := escapeHtmlL l
  let b1 := boldDD '*' escaped.length escaped
  let b2 := boldDD '_' b1.length b1
  let e1 := emD '*' b2.length b2
  let e2 := emD '_' e1.length e1
  let bulleted := joinNl ((splitOnNl e2).map (fun line => lineNumbered (lineBullet line)))
  let para := runReplace "\n" "<br>" (runReplace "\n\n" "</p><p>" bulleted)
  let ul := ulWrap para.length para
  paragraphWrap ul

def formatMessage (text : String) : String := String.mk (formatMessageL text.data)

/-- `addMessage` (app.js lines 167-192): assistant content goes through
`formatMessage`; user content is escaped and wrapped in a plain paragraph. -/
def renderedMessageHtml (role : Role) (content : String) : String :=
  match role with
  | Role.assistant => formatMessage content
  | Role.user => "<p>" ++ escapeHtml content ++ "</p>"

/-- C2 counterexample: the assistant rendering of `"**Buy** AAPL now"` is
`<strong>Buy</strong> AAPL now` with no surrounding paragraph element — the
paragraph wrap is skipped because the formatted text already starts with a
tag — contradicting the claimed `<p>`-wrapped output. -/
theorem c2_counterexample :
    renderedMessageHtml Role.assistant "**Buy** AAPL now" =
      "<strong>Buy</strong> AAPL now" ∧
    renderedMessageHtml Role.assistant "**Buy** AAPL now" ≠
      "<p><strong>Buy</strong> AAPL now</p>" := by
  exact ⟨by decide, by decide⟩

/-- C2 (amended): the assistant message `"**Buy** AAPL now"` renders as
`<strong>Buy</strong> AAPL now` with no paragraph wrapper (the wrap applies
only when the formatted text does not already start with a tag); the same
text as a user message renders as the literal escaped text in a plain
paragraph with no bold markup; in both roles the HTML-special characters are
escaped before any markdown substitution (`formatMessage` factors through
the escape step, as the injected-tag example also shows), and user text is
never markdown-rendered. -/
theorem c2_theorem :
    renderedMessageHtml Role.assistant "**Buy** AAPL now" =
      "<strong>Buy</strong> AAPL now" ∧
    renderedMessageHtml Role.user "**Buy** AAPL now" =
      "<p>**Buy** AAPL now</p>" ∧
    (∀ text : String,
      formatMessage text =
        String.mk (paragraphWrap (markdownSubstitutions (escapeHtmlL text.data)))) ∧
    (∀ text : String,
      renderedMessageHtml Role.user text = "<p>" ++ escapeHtml text ++ "</p>") ∧
    renderedMessageHtml Role.assistant "**<b>Buy</b>** AAPL" =
      "<strong>&lt;b&gt;Buy&lt;/b&gt;</strong> AAPL" := by
  refine ⟨by decide, by decide, fun text => rfl, fun text => rfl, by decide⟩
